import Mathlib

/-!
Shallow embedding of the segwit-v0 output descriptors (`Wsh`, `Wpkh`) of
rust-miniscript's `descriptor/segwitv0.rs`, together with models of the
external collaborators the file consumes (miniscript expressions,
sorted-multisig lists, the expression-tree parser, key capabilities and
the segwit-v0 script context).  The core functions are translated
directly from the source; external collaborators that are not part of the
source file are modelled from the specification's interface descriptions.
-/

namespace RMS

/-- Raw byte strings (scripts, signatures, serialized keys). -/
abbrev Bytes := List Nat

/-- Modelled from the spec: the low-level public-key representation is an
external collaborator; we keep only what the core observes about it — a
compressedness flag and its serialized bytes. -/
structure PublicKey where
  compressed : Bool
  bytes : Bytes
deriving DecidableEq

/-- Serialization of a concrete public key (`bitcoin::PublicKey::to_bytes`). -/
def PublicKey.to_bytes (pk : PublicKey) : Bytes := pk.bytes

/-- Modelled from the spec: `bitcoin::key::CompressedPublicKey::try_from`
succeeds exactly on keys that are in compressed form. -/
def CompressedPublicKey.try_from (pk : PublicKey) : Option PublicKey :=
  if pk.compressed then some pk else none

/-- Bitcoin network selector (external `bitcoin::Network`). -/
inductive Network where
  | Bitcoin
  | Testnet
  | Signet
  | Regtest
deriving DecidableEq

/-- Script-context errors (external `ScriptContextError`); the core only
produces the compressed-only violation. -/
inductive ScriptContextError where
  | CompressedOnly (pk : String)
  | Other (msg : String)
deriving DecidableEq

/-- The crate-level error type, restricted to the variants the segwit-v0
descriptor code can produce or propagate. -/
inductive Error where
  | Unexpected (msg : String)
  | ContextError (e : ScriptContextError)
  | MissingSig (pk : PublicKey)
  | ImpossibleSatisfaction
  | CouldNotSatisfy
  | Other (msg : String)
deriving DecidableEq

/-- Modelled from the spec: the textual-expression tree built by the
external tokenizer — a node name together with the argument subtrees. -/
inductive Tree where
  | mk (name : String) (args : List Tree)

/-- Name of an expression-tree node. -/
def Tree.name : Tree → String
  | .mk n _ => n

/-- Argument subtrees of an expression-tree node. -/
def Tree.args : Tree → List Tree
  | .mk _ a => a

/-- Modelled from the spec: Bitcoin's standard variable-length integer
encoding length (`crate::util::varint_len`) — 1 byte for values below
0xFD, 3 bytes up to 0xFFFF, 5 bytes up to 0xFFFFFFFF, 9 bytes beyond. -/
def varint_len (n : Nat) : Nat :=
  if n < 0xFD then 1
  else if n ≤ 0xFFFF then 3
  else if n ≤ 0xFFFFFFFF then 5
  else 9

/-- Modelled from the spec: the capability oracle consumed by real
satisfaction — `lookup_signature(key) -> optional signature bytes`. -/
structure Satisfier (Pk : Type) where
  lookup_ecdsa_sig : Pk → Option Bytes

/-- Modelled from the spec: the availability oracle consumed by symbolic
planning — `has_signature(key) -> boolean`. -/
structure AssetProvider (Pk : Type) where
  provider_lookup_ecdsa_sig : Pk → Bool

/-- Modelled from the spec: a symbolic stand-in for a witness-stack
element produced during planning. -/
inductive Placeholder (Pk : Type) where
  | EcdsaSigPk (pk : Pk)
  | Pubkey (pk : Pk) (len : Nat)

/-- Modelled from the spec: a witness-stack description — a sequence of
stack items or "unavailable". -/
inductive Witness (T : Type) where
  | Stack (items : List T)
  | Unavailable

/-- Modelled from the spec: a satisfaction/plan result — a witness-stack
description, a flag marking whether the stack contains a signature, and
optional relative/absolute timelock requirements. -/
structure Satisfaction (T : Type) where
  stack : Witness T
  has_sig : Bool
  relative_timelock : Option Nat
  absolute_timelock : Option Nat

/-- Modelled from the spec: the generic script-expression type
(`Miniscript<Pk, Segwitv0>`) is an external collaborator; the core
observes its script size, its satisfaction-size analysis (which is
defined exactly when the expression is not provably unsatisfiable), its
serialization, its display form, and its satisfaction/planning entry
points. -/
structure Miniscript (Pk : Type) where
  script_size : Nat
  unsatisfiable : Bool
  max_sat_elems : Nat
  max_sat_size : Nat
  encode : Bytes
  display : String
  satisfy : Satisfier Pk → Except Error (List Bytes)
  satisfy_malleable : Satisfier Pk → Except Error (List Bytes)
  build_template : AssetProvider Pk → Satisfaction (Placeholder Pk)
  build_template_mall : AssetProvider Pk → Satisfaction (Placeholder Pk)

/-- Modelled from the spec: `Miniscript::max_satisfaction_witness_elements`
fails exactly when the expression is provably unsatisfiable; the returned
count is inclusive of the witness script. -/
def Miniscript.max_satisfaction_witness_elements {Pk : Type}
    (ms : Miniscript Pk) : Except Error Nat :=
  if ms.unsatisfiable then .error .ImpossibleSatisfaction else .ok ms.max_sat_elems

/-- Modelled from the spec: `Miniscript::max_satisfaction_size` fails
exactly when the expression is provably unsatisfiable. -/
def Miniscript.max_satisfaction_size {Pk : Type}
    (ms : Miniscript Pk) : Except Error Nat :=
  if ms.unsatisfiable then .error .ImpossibleSatisfaction else .ok ms.max_sat_size

/-- Modelled from the spec: the sorted-multisignature list type
(`SortedMultiVec<Pk, Segwitv0>`) is an external collaborator; a k-of-n
multisignature is always satisfiable, so its size analysis is total. -/
structure SortedMultiVec (Pk : Type) where
  k : Nat
  pks : List Pk
  script_size : Nat
  max_satisfaction_witness_elements : Nat
  max_satisfaction_size : Nat
  encode : Bytes
  display : String
  satisfy : Satisfier Pk → Except Error (List Bytes)
  build_template : AssetProvider Pk → Satisfaction (Placeholder Pk)

/-- Modelled from the spec: the bundle of external interfaces the core
consumes — key capabilities (parse/print, compressedness, conversion to a
concrete key, serialized length), segwit-v0 top-level checks, the
expression-tree parser, the external component parsers/constructors, and
the native P2WSH/P2WPKH encoding primitives. -/
structure Ext (Pk : Type) where
  pk_is_uncompressed : Pk → Bool
  pk_to_string : Pk → String
  pk_from_str : String → Except Error Pk
  pk_to_public_key : Pk → PublicKey
  pk_len : Pk → Nat
  top_level_checks : Miniscript Pk → Except Error Unit
  tree_from_str : String → Except Error Tree
  ms_from_tree : Tree → Except Error (Miniscript Pk)
  smv_from_tree : Tree → Except Error (SortedMultiVec Pk)
  smv_new : Nat → List Pk → Except Error (SortedMultiVec Pk)
  p2wpkh_addr : PublicKey → Network → Bytes
  p2wsh_addr : Bytes → Network → Bytes
  address_script_pubkey : Bytes → Bytes
  to_p2wsh : Bytes → Bytes

/-- Modelled from the spec: the segwit-v0 per-key check enforces the
compressed-only rule, failing with `CompressedOnly` on a key that is not
usable in compressed form (`Segwitv0::check_pk`). -/
def Segwitv0.check_pk {Pk : Type} (E : Ext Pk) (pk : Pk) :
    Except ScriptContextError Unit :=
  if E.pk_is_uncompressed pk then
    .error (.CompressedOnly (E.pk_to_string pk))
  else
    .ok ()

/-- Modelled from the spec: `expression::terminal` requires a leaf node
(no argument subtrees) and applies the key grammar to the node name. -/
def expression.terminal {Pk : Type} (t : Tree)
    (f : String → Except Error Pk) : Except Error Pk :=
  if t.args.isEmpty then f t.name
  else .error (.Unexpected t.name)

/-- The inner variant of a `Wsh` descriptor: a sorted-multisig list or a
generic miniscript expression (source `WshInner`). -/
inductive WshInner (Pk : Type) where
  | SortedMulti (smv : SortedMultiVec Pk)
  | Ms (ms : Miniscript Pk)

/-- A segwit-v0 `wsh` descriptor wrapping exactly one inner variant. -/
structure Wsh (Pk : Type) where
  inner : WshInner Pk

/-- `Wsh::new`: runs the segwit-v0 top-level checks and wraps the
expression as the generic-miniscript variant. -/
def Wsh.new {Pk : Type} (E : Ext Pk) (ms : Miniscript Pk) :
    Except Error (Wsh Pk) := do
  let _ ← E.top_level_checks ms
  pure ⟨.Ms ms⟩

/-- `Wsh::new_sortedmulti`: delegates validation to the sorted-multisig
constructor and wraps the result. -/
def Wsh.new_sortedmulti {Pk : Type} (E : Ext Pk) (k : Nat) (pks : List Pk) :
    Except Error (Wsh Pk) := do
  let smv ← E.smv_new k pks
  pure ⟨.SortedMulti smv⟩

/-- `Wsh::max_weight_to_satisfy`: upper bound, in weight units, on the
satisfied-minus-unsatisfied segwit weight difference. -/
def Wsh.max_weight_to_satisfy {Pk : Type} (d : Wsh Pk) : Except Error Nat := do
  let (redeem_script_size, max_sat_elems, max_sat_size) ←
    match d.inner with
    | .SortedMulti smv =>
        pure (smv.script_size, smv.max_satisfaction_witness_elements,
          smv.max_satisfaction_size)
    | .Ms ms => do
        let elems ← ms.max_satisfaction_witness_elements
        let size ← ms.max_satisfaction_size
        pure (ms.script_size, elems, size)
  let stack_varint_diff := varint_len max_sat_elems - varint_len 0
  pure (stack_varint_diff + varint_len redeem_script_size
    + redeem_script_size + max_sat_size)

/-- `Wsh::max_satisfaction_weight` (deprecated estimator with the older
counting convention). -/
def Wsh.max_satisfaction_weight {Pk : Type} (d : Wsh Pk) : Except Error Nat := do
  let (script_size, max_sat_elems, max_sat_size) ←
    match d.inner with
    | .SortedMulti smv =>
        pure (smv.script_size, smv.max_satisfaction_witness_elements,
          smv.max_satisfaction_size)
    | .Ms ms => do
        let elems ← ms.max_satisfaction_witness_elements
        let size ← ms.max_satisfaction_size
        pure (ms.script_size, elems, size)
  pure (4 + varint_len script_size + script_size
    + varint_len max_sat_elems + max_sat_size)

/-- `Wsh::inner_script`: the exact serialized witness script (the
pre-hash bytes) of the wrapped variant. -/
def Wsh.inner_script {Pk : Type} (d : Wsh Pk) : Bytes :=
  match d.inner with
  | .SortedMulti smv => smv.encode
  | .Ms ms => ms.encode

/-- `Wsh::script_pubkey`: P2WSH hash of the inner script. -/
def Wsh.script_pubkey {Pk : Type} (E : Ext Pk) (d : Wsh Pk) : Bytes :=
  E.to_p2wsh d.inner_script

/-- `Wsh::ecdsa_sighash_script_code`: the pre-bip-340 signature script
code for this descriptor. -/
def Wsh.ecdsa_sighash_script_code {Pk : Type} (d : Wsh Pk) : Bytes :=
  d.inner_script

/-- `Wsh::get_satisfaction`: non-malleable witness and scriptSig. -/
def Wsh.get_satisfaction {Pk : Type} (d : Wsh Pk) (satisfier : Satisfier Pk) :
    Except Error (List Bytes × Bytes) := do
  let witness ←
    match d.inner with
    | .SortedMulti smv => smv.satisfy satisfier
    | .Ms ms => ms.satisfy satisfier
  let witness_script := d.inner_script
  let witness := witness ++ [witness_script]
  let script_sig : Bytes := []
  pure (witness, script_sig)

/-- `Wsh::get_satisfaction_mall`: possibly malleable witness and
scriptSig. -/
def Wsh.get_satisfaction_mall {Pk : Type} (d : Wsh Pk)
    (satisfier : Satisfier Pk) : Except Error (List Bytes × Bytes) := do
  let witness ←
    match d.inner with
    | .SortedMulti smv => smv.satisfy satisfier
    | .Ms ms => ms.satisfy_malleable satisfier
  let witness := witness ++ [d.inner_script]
  let script_sig : Bytes := []
  pure (witness, script_sig)

/-- `Wsh::plan_satisfaction`: symbolic non-malleable plan. -/
def Wsh.plan_satisfaction {Pk : Type} (d : Wsh Pk) (provider : AssetProvider Pk) :
    Satisfaction (Placeholder Pk) :=
  match d.inner with
  | .SortedMulti sm => sm.build_template provider
  | .Ms ms => ms.build_template provider

/-- `Wsh::plan_satisfaction_mall`: symbolic malleable plan. -/
def Wsh.plan_satisfaction_mall {Pk : Type} (d : Wsh Pk)
    (provider : AssetProvider Pk) : Satisfaction (Placeholder Pk) :=
  match d.inner with
  | .SortedMulti sm => sm.build_template provider
  | .Ms ms => ms.build_template_mall provider

/-- `Display for Wsh`: prints the inner value's own printed form inside
a `wsh(...)` wrapper (the trailing checksum is out of scope). -/
def Wsh.display {Pk : Type} (d : Wsh Pk) : String :=
  match d.inner with
  | .SortedMulti smv => "wsh(" ++ smv.display ++ ")"
  | .Ms ms => "wsh(" ++ ms.display ++ ")"

/-- The parse-shape diagnostic of the `FromTree` implementations: carries
the observed node name and argument count. -/
def parseShapeError (t : Tree) (desc : String) : Error :=
  .Unexpected (t.name ++ "(" ++ toString t.args.length
    ++ " args) while parsing " ++ desc ++ " descriptor")

/-- `FromTree for Wsh`: validates node name `wsh` and arity one, then
dispatches on whether the sole child is named `sortedmulti`; the generic
path re-runs the segwit-v0 top-level checks. -/
def Wsh.from_tree {Pk : Type} (E : Ext Pk) (top : Tree) :
    Except Error (Wsh Pk) :=
  if top.name = "wsh" then
    match top.args with
    | [arg] =>
        if arg.name = "sortedmulti" then do
          let smv ← E.smv_from_tree arg
          pure ⟨.SortedMulti smv⟩
        else do
          let sub ← E.ms_from_tree arg
          let _ ← E.top_level_checks sub
          pure ⟨.Ms sub⟩
    | _ => .error (parseShapeError top "wsh")
  else .error (parseShapeError top "wsh")

/-- `FromStr for Wsh`: builds the expression tree and delegates to
`from_tree`. -/
def Wsh.from_str {Pk : Type} (E : Ext Pk) (s : String) :
    Except Error (Wsh Pk) := do
  let top ← E.tree_from_str s
  Wsh.from_tree E top

/-- A segwit-v0 `wpkh` descriptor wrapping exactly one key. -/
structure Wpkh (Pk : Type) where
  pk : Pk

/-- `Wpkh::new`: fails with a context error unless the key passes the
segwit-v0 per-key check. -/
def Wpkh.new {Pk : Type} (E : Ext Pk) (pk : Pk) :
    Except ScriptContextError (Wpkh Pk) :=
  match Segwitv0.check_pk E pk with
  | .ok _ => .ok ⟨pk⟩
  | .error e => .error e

/-- `Wpkh::sanity_check`: independently re-checks the compressed-only
constraint. -/
def Wpkh.sanity_check {Pk : Type} (E : Ext Pk) (d : Wpkh Pk) :
    Except Error Unit :=
  if E.pk_is_uncompressed d.pk then
    .error (.ContextError (.CompressedOnly (E.pk_to_string d.pk)))
  else
    .ok ()

/-- `Wpkh::max_weight_to_satisfy`: total — a key-hash spend always has a
fixed two-item stack shape. -/
def Wpkh.max_weight_to_satisfy {Pk : Type} (E : Ext Pk) (d : Wpkh Pk) : Nat :=
  let stack_items_size := 73 + E.pk_len d.pk
  let stack_varint_diff := varint_len 2 - varint_len 0
  stack_varint_diff + stack_items_size

/-- `Wpkh::max_satisfaction_weight` (deprecated estimator); also total. -/
def Wpkh.max_satisfaction_weight {Pk : Type} (E : Ext Pk) (d : Wpkh Pk) : Nat :=
  4 + 1 + 73 + E.pk_len d.pk

/-- `Wpkh::script_pubkey`: converts to a compressed key (the `expect`
branch is modelled as `none`) and derives the P2WPKH script. -/
def Wpkh.script_pubkey {Pk : Type} (E : Ext Pk) (d : Wpkh Pk) : Option Bytes :=
  let pk := E.pk_to_public_key d.pk
  match CompressedPublicKey.try_from pk with
  | some compressed =>
      some (E.address_script_pubkey (E.p2wpkh_addr compressed .Bitcoin))
  | none => none

/-- `Wpkh::address`: same compressed-key conversion, rendered for the
requested network; the `expect` branch is modelled as `none`. -/
def Wpkh.address {Pk : Type} (E : Ext Pk) (d : Wpkh Pk) (network : Network) :
    Option Bytes :=
  let pk := E.pk_to_public_key d.pk
  match CompressedPublicKey.try_from pk with
  | some compressed => some (E.p2wpkh_addr compressed network)
  | none => none

/-- `Wpkh::get_satisfaction`: looks up a signature for the embedded key;
on hit returns witness = [signature, serialized key] with an empty
scriptSig, on miss fails with `MissingSig` naming the key. -/
def Wpkh.get_satisfaction {Pk : Type} (E : Ext Pk) (d : Wpkh Pk)
    (satisfier : Satisfier Pk) : Except Error (List Bytes × Bytes) :=
  match satisfier.lookup_ecdsa_sig d.pk with
  | some sig =>
      let sig_vec := sig
      let script_sig : Bytes := []
      let witness := [sig_vec, (E.pk_to_public_key d.pk).to_bytes]
      .ok (witness, script_sig)
  | none => .error (.MissingSig (E.pk_to_public_key d.pk))

/-- `Wpkh::get_satisfaction_mall`: delegates to `get_satisfaction`. -/
def Wpkh.get_satisfaction_mall {Pk : Type} (E : Ext Pk) (d : Wpkh Pk)
    (satisfier : Satisfier Pk) : Except Error (List Bytes × Bytes) :=
  Wpkh.get_satisfaction E d satisfier

/-- `Wpkh::plan_satisfaction`: two-element placeholder stack when the
provider reports availability, otherwise unavailable; always marked as
containing a signature, no timelocks. -/
def Wpkh.plan_satisfaction {Pk : Type} (E : Ext Pk) (d : Wpkh Pk)
    (provider : AssetProvider Pk) : Satisfaction (Placeholder Pk) :=
  let stack :=
    if provider.provider_lookup_ecdsa_sig d.pk then
      Witness.Stack [Placeholder.EcdsaSigPk d.pk,
        Placeholder.Pubkey d.pk (E.pk_len d.pk)]
    else
      Witness.Unavailable
  { stack := stack, has_sig := true,
    relative_timelock := none, absolute_timelock := none }

/-- `Wpkh::plan_satisfaction_mall`: delegates to `plan_satisfaction`. -/
def Wpkh.plan_satisfaction_mall {Pk : Type} (E : Ext Pk) (d : Wpkh Pk)
    (provider : AssetProvider Pk) : Satisfaction (Placeholder Pk) :=
  Wpkh.plan_satisfaction E d provider

/-- `Display for Wpkh`: `wpkh(...)` wrapping the key's printed form. -/
def Wpkh.display {Pk : Type} (E : Ext Pk) (d : Wpkh Pk) : String :=
  "wpkh(" ++ E.pk_to_string d.pk ++ ")"

/-- `FromTree for Wpkh`: validates node name `wpkh` and arity one, parses
the sole leaf child through the key grammar, then runs the constructor. -/
def Wpkh.from_tree {Pk : Type} (E : Ext Pk) (top : Tree) :
    Except Error (Wpkh Pk) :=
  if top.name = "wpkh" then
    match top.args with
    | [arg] => do
        let pk ← expression.terminal arg E.pk_from_str
        match Wpkh.new E pk with
        | .ok d => pure d
        | .error e => .error (.ContextError e)
    | _ => .error (parseShapeError top "wpkh")
  else .error (parseShapeError top "wpkh")

/-- `FromStr for Wpkh`: builds the expression tree and delegates to
`from_tree`. -/
def Wpkh.from_str {Pk : Type} (E : Ext Pk) (s : String) :
    Except Error (Wpkh Pk) := do
  let top ← E.tree_from_str s
  Wpkh.from_tree E top

/-- A concrete satisfiable miniscript instance (a single-key check) used
to exercise the embedding on concrete inputs. -/
def msD : Miniscript String :=
  { script_size := 1
    unsatisfiable := false
    max_sat_elems := 2
    max_sat_size := 74
    encode := [81]
    display := "pk(A)"
    satisfy := fun s =>
      match s.lookup_ecdsa_sig "A" with
      | some sig => .ok [sig]
      | none => .error .CouldNotSatisfy
    satisfy_malleable := fun s =>
      match s.lookup_ecdsa_sig "A" with
      | some sig => .ok [sig]
      | none => .error .CouldNotSatisfy
    build_template := fun _ =>
      { stack := .Unavailable, has_sig := true,
        relative_timelock := none, absolute_timelock := none }
    build_template_mall := fun _ =>
      { stack := .Unavailable, has_sig := true,
        relative_timelock := none, absolute_timelock := none } }

/-- A concrete provably-unsatisfiable miniscript instance. -/
def msUnsat : Miniscript String :=
  { msD with unsatisfiable := true, display := "0", encode := [0] }

/-- A concrete 1-of-1 sorted-multisig instance. -/
def smvD : SortedMultiVec String :=
  { k := 1
    pks := ["A"]
    script_size := 37
    max_satisfaction_witness_elements := 3
    max_satisfaction_size := 75
    encode := [82]
    display := "sortedmulti(1,A)"
    satisfy := fun s =>
      match s.lookup_ecdsa_sig "A" with
      | some sig => .ok [[], sig]
      | none => .error .CouldNotSatisfy
    build_template := fun _ =>
      { stack := .Unavailable, has_sig := true,
        relative_timelock := none, absolute_timelock := none } }

/-- A concrete external-interface bundle over string keys: `"U"` is the
one uncompressed key, every other string is a compressed key, and the
tree parser recognises exactly the printed forms of the concrete
descriptors built from `msD` and `smvD`. -/
def extD : Ext String :=
  { pk_is_uncompressed := fun pk => pk == "U"
    pk_to_string := fun pk => pk
    pk_from_str := fun s => .ok s
    pk_to_public_key := fun pk =>
      if pk == "U" then ⟨false, List.replicate 65 4⟩
      else ⟨true, List.replicate 33 2⟩
    pk_len := fun _ => 34
    top_level_checks := fun _ => .ok ()
    tree_from_str := fun s =>
      if s = "wsh(pk(A))" then
        .ok (.mk "wsh" [.mk "pk" [.mk "A" []]])
      else if s = "wsh(sortedmulti(1,A))" then
        .ok (.mk "wsh" [.mk "sortedmulti" [.mk "1" [], .mk "A" []]])
      else if s = "wpkh(A)" then
        .ok (.mk "wpkh" [.mk "A" []])
      else .error (.Unexpected s)
    ms_from_tree := fun t =>
      if t.name = "pk" then .ok msD else .error (.Unexpected t.name)
    smv_from_tree := fun t =>
      if t.name = "sortedmulti" then .ok smvD else .error (.Unexpected t.name)
    smv_new := fun _ _ => .ok smvD
    p2wpkh_addr := fun pk _ => pk.bytes
    p2wsh_addr := fun b _ => b
    address_script_pubkey := fun b => b
    to_p2wsh := fun b => b }

/-- A concrete oracle holding one signature for key `"A"`. -/
def satD : Satisfier String :=
  ⟨fun pk => if pk = "A" then some [9] else none⟩

/-- A concrete oracle holding no signatures. -/
def satNone : Satisfier String := ⟨fun _ => none⟩

/-- Modelled from the spec: whether a script-hash descriptor's wrapped
spending condition is provably unsatisfiable — a sorted-multisig (k-of-n
threshold) is always spendable, a generic expression carries its own
analysis verdict. -/
def Wsh.provably_unsatisfiable {Pk : Type} (d : Wsh Pk) : Bool :=
  match d.inner with
  | .SortedMulti _ => false
  | .Ms ms => ms.unsatisfiable

/-- Modelled from the spec: a key-hash descriptor's spending condition is
a single signature requirement and is never provably unsatisfiable. -/
def Wpkh.provably_unsatisfiable {Pk : Type} (_ : Wpkh Pk) : Bool := false

/-- C9: for every `wsh` descriptor, the pre-bip-340 signature script code
equals the serialized witness script (`inner_script`): the source defines
`ecdsa_sighash_script_code` as exactly `inner_script`. -/
theorem wsh_script_code_eq_inner_script {Pk : Type} (d : Wsh Pk) :
    d.ecdsa_sighash_script_code = d.inner_script := rfl

/-- C8: malleable and non-malleable paths coincide where the spec says
they do — for every `wpkh` descriptor both the real and the symbolic
malleable entry points return exactly what the non-malleable ones return,
and for every `wsh` descriptor whose inner variant is a sorted-multisig
the real and symbolic satisfactions agree between the malleable and
non-malleable entry points. -/
theorem malleable_paths_coincide {Pk : Type} (E : Ext Pk) (d : Wpkh Pk)
    (s : Satisfier Pk) (p : AssetProvider Pk) (smv : SortedMultiVec Pk) :
    Wpkh.get_satisfaction_mall E d s = Wpkh.get_satisfaction E d s
    ∧ Wpkh.plan_satisfaction_mall E d p = Wpkh.plan_satisfaction E d p
    ∧ Wsh.get_satisfaction ⟨.SortedMulti smv⟩ s
        = Wsh.get_satisfaction_mall ⟨.SortedMulti smv⟩ s
    ∧ Wsh.plan_satisfaction ⟨.SortedMulti smv⟩ p
        = Wsh.plan_satisfaction_mall ⟨.SortedMulti smv⟩ p :=
  ⟨rfl, rfl, rfl, rfl⟩

/-- C2: for every `wpkh` descriptor and oracle, `get_satisfaction` fails
with `MissingSig` naming the embedded key exactly when the oracle has no
ECDSA signature for it; on a hit it succeeds with
witness = [signature bytes, serialized public-key bytes] and an empty
legacy signature script. -/
theorem wpkh_get_satisfaction_spec {Pk : Type} (E : Ext Pk) (d : Wpkh Pk)
    (s : Satisfier Pk) :
    (s.lookup_ecdsa_sig d.pk = none →
      Wpkh.get_satisfaction E d s
        = .error (.MissingSig (E.pk_to_public_key d.pk)))
    ∧ (∀ sig, s.lookup_ecdsa_sig d.pk = some sig →
      Wpkh.get_satisfaction E d s
        = .ok ([sig, (E.pk_to_public_key d.pk).to_bytes], [])) := by
  constructor
  · intro h
    simp [Wpkh.get_satisfaction, h]
  · intro sig h
    simp [Wpkh.get_satisfaction, h]

/-- Closed instance of `wpkh_get_satisfaction_spec` at concrete inputs. -/
theorem wpkh_get_satisfaction_spec_witness :
    Wpkh.get_satisfaction extD ⟨"A"⟩ satD
      = .ok ([[9], List.replicate 33 2], [])
    ∧ Wpkh.get_satisfaction extD ⟨"A"⟩ satNone
      = .error (.MissingSig ⟨true, List.replicate 33 2⟩) :=
  ⟨(wpkh_get_satisfaction_spec extD ⟨"A"⟩ satD).2 [9] rfl,
   (wpkh_get_satisfaction_spec extD ⟨"A"⟩ satNone).1 rfl⟩

/-- C5: with "usable in compressed form" meaning not flagged
uncompressed, `Wpkh::new` succeeds on any compressed-usable key and
`sanity_check` on the result succeeds; on any other key `Wpkh::new` fails
with the compressed-only context violation and `sanity_check` on a
descriptor holding such a key fails with the same violation. -/
theorem wpkh_compressed_only {Pk : Type} (E : Ext Pk) (pk : Pk) :
    (E.pk_is_uncompressed pk = false →
      Wpkh.new E pk = .ok ⟨pk⟩
      ∧ Wpkh.sanity_check E ⟨pk⟩ = .ok ())
    ∧ (E.pk_is_uncompressed pk = true →
      Wpkh.new E pk = .error (.CompressedOnly (E.pk_to_string pk))
      ∧ Wpkh.sanity_check E ⟨pk⟩
          = .error (.ContextError (.CompressedOnly (E.pk_to_string pk)))) := by
  constructor
  · intro h
    constructor
    · simp [Wpkh.new, Segwitv0.check_pk, h]
    · simp [Wpkh.sanity_check, h]
  · intro h
    constructor
    · simp [Wpkh.new, Segwitv0.check_pk, h]
    · simp [Wpkh.sanity_check, h]

/-- Closed instance of `wpkh_compressed_only` at a compressed key `"A"`
and the uncompressed key `"U"`. -/
theorem wpkh_compressed_only_witness :
    (Wpkh.new extD "A" = .ok ⟨"A"⟩
      ∧ Wpkh.sanity_check extD ⟨"A"⟩ = .ok ())
    ∧ (Wpkh.new extD "U" = .error (.CompressedOnly "U")
      ∧ Wpkh.sanity_check extD ⟨"U"⟩
          = .error (.ContextError (.CompressedOnly "U"))) :=
  ⟨(wpkh_compressed_only extD "A").1 rfl,
   (wpkh_compressed_only extD "U").2 rfl⟩

/-- C3: for every `wsh` descriptor and oracle, whenever
`get_satisfaction` or `get_satisfaction_mall` succeeds, the returned
witness stack ends with the serialized witness script (`inner_script`)
and the returned legacy signature script is empty. -/
theorem wsh_satisfaction_appends_witness_script {Pk : Type} (d : Wsh Pk)
    (s : Satisfier Pk) (w : List Bytes) (ss : Bytes) :
    (Wsh.get_satisfaction d s = .ok (w, ss) →
      w.getLast? = some d.inner_script ∧ ss = [])
    ∧ (Wsh.get_satisfaction_mall d s = .ok (w, ss) →
      w.getLast? = some d.inner_script ∧ ss = []) := by
  obtain ⟨inner⟩ := d
  constructor
  · intro h
    cases inner with
    | SortedMulti smv =>
        cases hsat : smv.satisfy s with
        | error e => simp [Wsh.get_satisfaction, hsat] at h
        | ok wit =>
            simp [Wsh.get_satisfaction, hsat] at h
            obtain ⟨hw, hss⟩ := h
            subst hw
            subst hss
            simp
    | Ms ms =>
        cases hsat : ms.satisfy s with
        | error e => simp [Wsh.get_satisfaction, hsat] at h
        | ok wit =>
            simp [Wsh.get_satisfaction, hsat] at h
            obtain ⟨hw, hss⟩ := h
            subst hw
            subst hss
            simp
  · intro h
    cases inner with
    | SortedMulti smv =>
        cases hsat : smv.satisfy s with
        | error e => simp [Wsh.get_satisfaction_mall, hsat] at h
        | ok wit =>
            simp [Wsh.get_satisfaction_mall, hsat] at h
            obtain ⟨hw, hss⟩ := h
            subst hw
            subst hss
            simp
    | Ms ms =>
        cases hsat : ms.satisfy_malleable s with
        | error e => simp [Wsh.get_satisfaction_mall, hsat] at h
        | ok wit =>
            simp [Wsh.get_satisfaction_mall, hsat] at h
            obtain ⟨hw, hss⟩ := h
            subst hw
            subst hss
            simp

/-- Closed instance of `wsh_satisfaction_appends_witness_script` at a
concrete satisfiable descriptor and oracle. -/
theorem wsh_satisfaction_appends_witness_script_witness :
    (([[9], [81]] : List Bytes).getLast?
        = some (Wsh.inner_script ⟨.Ms msD⟩)
      ∧ ([] : Bytes) = [])
    ∧ (([[9], [81]] : List Bytes).getLast?
        = some (Wsh.inner_script ⟨.Ms msD⟩)
      ∧ ([] : Bytes) = []) :=
  ⟨(wsh_satisfaction_appends_witness_script ⟨.Ms msD⟩ satD [[9], [81]] []).1 rfl,
   (wsh_satisfaction_appends_witness_script ⟨.Ms msD⟩ satD [[9], [81]] []).2 rfl⟩

/-- C1: `Wsh::max_weight_to_satisfy` returns exactly
`varint_len(max_stack_elements) - varint_len(0) + varint_len(script_size)
+ script_size + max_satisfaction_byte_size` weight units whenever the
inner variant's satisfaction analysis is defined, for both inner
variants; and `varint_len` follows Bitcoin's standard varint encoding
(1 byte below 0xFD, 3 bytes up to 0xFFFF). -/
theorem wsh_max_weight_to_satisfy_formula {Pk : Type}
    (smv : SortedMultiVec Pk) (ms : Miniscript Pk) (e sz : Nat) :
    ((∀ n, n < 0xFD → varint_len n = 1)
      ∧ (∀ n, 0xFD ≤ n → n ≤ 0xFFFF → varint_len n = 3))
    ∧ Wsh.max_weight_to_satisfy ⟨.SortedMulti smv⟩
        = .ok (varint_len smv.max_satisfaction_witness_elements - varint_len 0
          + varint_len smv.script_size + smv.script_size
          + smv.max_satisfaction_size)
    ∧ (ms.max_satisfaction_witness_elements = .ok e →
      ms.max_satisfaction_size = .ok sz →
      Wsh.max_weight_to_satisfy ⟨.Ms ms⟩
        = .ok (varint_len e - varint_len 0 + varint_len ms.script_size
          + ms.script_size + sz)) := by
  refine ⟨⟨?_, ?_⟩, ?_, ?_⟩
  · intro n h
    simp [varint_len, h]
  · intro n h1 h2
    unfold varint_len
    rw [if_neg (by omega), if_pos h2]
  · rfl
  · intro h1 h2
    simp only [Wsh.max_weight_to_satisfy, h1, h2]
    rfl

/-- Closed instance of `wsh_max_weight_to_satisfy_formula` at a concrete
miniscript inner variant and at concrete varint inputs. -/
theorem wsh_max_weight_to_satisfy_formula_witness :
    Wsh.max_weight_to_satisfy ⟨.Ms msD⟩
      = .ok (varint_len 2 - varint_len 0 + varint_len msD.script_size
        + msD.script_size + 74)
    ∧ varint_len 2 = 1 :=
  ⟨(wsh_max_weight_to_satisfy_formula smvD msD 2 74).2.2 rfl rfl,
   (wsh_max_weight_to_satisfy_formula smvD msD 2 74).1.1 2 (by decide)⟩

/-- C6: whenever a script-hash descriptor's wrapped spending condition is
provably unsatisfiable (only the generic-miniscript variant can be), both
`max_weight_to_satisfy` and the deprecated `max_satisfaction_weight` fail;
a key-hash descriptor's condition is never provably unsatisfiable, so the
failure requirement holds vacuously for both of its (total) estimators. -/
theorem estimators_fail_on_unsatisfiable {Pk : Type} (d : Wsh Pk)
    (p : Wpkh Pk) :
    (d.provably_unsatisfiable = true →
      d.max_weight_to_satisfy = .error .ImpossibleSatisfaction
      ∧ d.max_satisfaction_weight = .error .ImpossibleSatisfaction)
    ∧ Wpkh.provably_unsatisfiable p = false := by
  obtain ⟨inner⟩ := d
  refine ⟨?_, rfl⟩
  intro h
  cases inner with
  | SortedMulti smv => simp [Wsh.provably_unsatisfiable] at h
  | Ms ms =>
      simp [Wsh.provably_unsatisfiable] at h
      constructor
      · simp only [Wsh.max_weight_to_satisfy,
          Miniscript.max_satisfaction_witness_elements, h, if_true]
        rfl
      · simp only [Wsh.max_satisfaction_weight,
          Miniscript.max_satisfaction_witness_elements, h, if_true]
        rfl

/-- Closed instance of `estimators_fail_on_unsatisfiable` at a concrete
unsatisfiable miniscript. -/
theorem estimators_fail_on_unsatisfiable_witness :
    (Wsh.max_weight_to_satisfy ⟨.Ms msUnsat⟩
        = .error .ImpossibleSatisfaction
      ∧ Wsh.max_satisfaction_weight ⟨.Ms msUnsat⟩
        = .error .ImpossibleSatisfaction)
    ∧ Wpkh.provably_unsatisfiable (⟨"A"⟩ : Wpkh String) = false :=
  ⟨(estimators_fail_on_unsatisfiable ⟨.Ms msUnsat⟩ ⟨"A"⟩).1 rfl,
   (estimators_fail_on_unsatisfiable ⟨.Ms msUnsat⟩ ⟨"A"⟩).2⟩

/-- C7: whenever an expression tree's top-level node name is not the
expected descriptor name or its argument count is not exactly one, both
`from_tree` implementations fail with the parse-shape diagnostic carrying
the observed node name and argument count; in particular parsing
`wsh(pk, pk)` fails reporting node name `wsh` and argument count 2. -/
theorem from_tree_shape_error {Pk : Type} (E : Ext Pk) (t : Tree) :
    (¬ (t.name = "wsh" ∧ t.args.length = 1) →
      Wsh.from_tree E t = .error (parseShapeError t "wsh"))
    ∧ (¬ (t.name = "wpkh" ∧ t.args.length = 1) →
      Wpkh.from_tree E t = .error (parseShapeError t "wpkh"))
    ∧ Wsh.from_tree E (.mk "wsh" [.mk "pk" [], .mk "pk" []])
        = .error (.Unexpected "wsh(2 args) while parsing wsh descriptor") := by
  obtain ⟨n, args⟩ := t
  refine ⟨?_, ?_, rfl⟩
  · intro h
    by_cases hn : n = "wsh"
    · subst hn
      match args with
      | [] => rfl
      | [a] => exact absurd ⟨rfl, rfl⟩ h
      | a :: b :: rest => rfl
    · simp [Wsh.from_tree, Tree.name, hn]
  · intro h
    by_cases hn : n = "wpkh"
    · subst hn
      match args with
      | [] => rfl
      | [a] => exact absurd ⟨rfl, rfl⟩ h
      | a :: b :: rest => rfl
    · simp [Wpkh.from_tree, Tree.name, hn]

/-- Closed instance of `from_tree_shape_error` at concrete malformed
trees. -/
theorem from_tree_shape_error_witness :
    Wsh.from_tree extD (.mk "foo" []) = .error (parseShapeError (.mk "foo" []) "wsh")
    ∧ Wpkh.from_tree extD (.mk "wpkh" [])
        = .error (parseShapeError (.mk "wpkh" []) "wpkh") :=
  ⟨(from_tree_shape_error extD (.mk "foo" [])).1 (by decide),
   (from_tree_shape_error extD (.mk "wpkh" [])).2.1 (by decide)⟩

/-- C10: for a `wpkh` descriptor produced by `Wpkh::new` over a key type
whose compressedness flag agrees with the concrete-key conversion, both
`script_pubkey` and `address` succeed — the internal compressed-key
conversion (the `expect`) cannot fail. -/
theorem wpkh_spk_address_no_panic {Pk : Type} (E : Ext Pk) (pk : Pk)
    (d : Wpkh Pk) (network : Network)
    (hkey : ∀ q, E.pk_is_uncompressed q = false →
      (E.pk_to_public_key q).compressed = true)
    (hnew : Wpkh.new E pk = .ok d) :
    (Wpkh.script_pubkey E d).isSome = true
    ∧ (Wpkh.address E d network).isSome = true := by
  cases hu : E.pk_is_uncompressed pk with
  | true =>
      exfalso
      simp [Wpkh.new, Segwitv0.check_pk, hu] at hnew
  | false =>
      have hd : d = ⟨pk⟩ := by
        simp [Wpkh.new, Segwitv0.check_pk, hu] at hnew
        exact hnew.symm
      subst hd
      have hc := hkey pk hu
      constructor
      · simp [Wpkh.script_pubkey, CompressedPublicKey.try_from, hc]
      · simp [Wpkh.address, CompressedPublicKey.try_from, hc]

/-- Closed instance of `wpkh_spk_address_no_panic` at the concrete
compressed key `"A"`. -/
theorem wpkh_spk_address_no_panic_witness :
    (Wpkh.script_pubkey extD ⟨"A"⟩).isSome = true
    ∧ (Wpkh.address extD ⟨"A"⟩ .Bitcoin).isSome = true :=
  wpkh_spk_address_no_panic extD "A" ⟨"A"⟩ .Bitcoin
    (fun q h => by
      have h' : (q == "U") = false := h
      show (if (q == "U") then (⟨false, List.replicate 65 4⟩ : PublicKey)
        else ⟨true, List.replicate 33 2⟩).compressed = true
      rw [h']
      rfl)
    rfl

/-- Reduction of `Wsh.from_tree` on a well-shaped `wsh` node. -/
theorem wsh_from_tree_on_arg {Pk : Type} (E : Ext Pk) (arg : Tree) :
    Wsh.from_tree E (.mk "wsh" [arg]) =
      (if arg.name = "sortedmulti" then
        (E.smv_from_tree arg).bind fun smv => .ok ⟨.SortedMulti smv⟩
      else
        (E.ms_from_tree arg).bind fun sub =>
          (E.top_level_checks sub).bind fun _ => .ok ⟨.Ms sub⟩) := rfl

/-- Reduction of `Wpkh.from_tree` on a well-shaped `wpkh` node whose sole
child is a leaf. -/
theorem wpkh_from_tree_on_leaf {Pk : Type} (E : Ext Pk) (name : String) :
    Wpkh.from_tree E (.mk "wpkh" [.mk name []]) =
      (E.pk_from_str name).bind fun pk =>
        match Wpkh.new E pk with
        | .ok d => .ok d
        | .error e => .error (.ContextError e) := rfl

/-- C4: round-trip law — for every validly constructed descriptor
(a `wsh` over either inner variant, or a `wpkh`), parsing the printed
form yields a structurally equal descriptor, given the out-of-scope
collaborators' own round-trip contracts: the tree parser returns the
printed form's tree, and the inner component's (miniscript,
sorted-multisig, key) grammar parses its own printed form back. -/
theorem descriptor_roundtrip {Pk : Type} (E : Ext Pk) :
    (∀ (ms : Miniscript Pk) (d : Wsh Pk) (tms : Tree),
      Wsh.new E ms = .ok d →
      E.tree_from_str d.display = .ok (.mk "wsh" [tms]) →
      tms.name ≠ "sortedmulti" →
      E.ms_from_tree tms = .ok ms →
      Wsh.from_str E d.display = .ok d)
    ∧ (∀ (k : Nat) (pks : List Pk) (smv : SortedMultiVec Pk) (d : Wsh Pk)
        (tsm : Tree),
      Wsh.new_sortedmulti E k pks = .ok d →
      d.inner = .SortedMulti smv →
      E.tree_from_str d.display = .ok (.mk "wsh" [tsm]) →
      tsm.name = "sortedmulti" →
      E.smv_from_tree tsm = .ok smv →
      Wsh.from_str E d.display = .ok d)
    ∧ (∀ (pk : Pk) (d : Wpkh Pk) (tpk : Tree),
      Wpkh.new E pk = .ok d →
      E.tree_from_str (Wpkh.display E d) = .ok (.mk "wpkh" [tpk]) →
      tpk.args = [] →
      E.pk_from_str tpk.name = .ok pk →
      Wpkh.from_str E (Wpkh.display E d) = .ok d) := by
  refine ⟨?_, ?_, ?_⟩
  · intro ms d tms hnew htree hname hms
    cases hch : E.top_level_checks ms with
    | error e =>
        exfalso
        simp [Wsh.new, hch] at hnew
    | ok u =>
        have hd : d = ⟨.Ms ms⟩ := by
          simp [Wsh.new, hch] at hnew
          exact hnew.symm
        subst hd
        unfold Wsh.from_str
        rw [htree]
        show Wsh.from_tree E (.mk "wsh" [tms]) = .ok ⟨.Ms ms⟩
        rw [wsh_from_tree_on_arg, if_neg hname, hms]
        show Except.bind (E.top_level_checks ms)
          (fun _ => Except.ok (⟨.Ms ms⟩ : Wsh Pk)) = Except.ok ⟨.Ms ms⟩
        rw [hch]
        rfl
  · intro k pks smv d tsm hnew hd htree hname hsmv
    obtain ⟨inner⟩ := d
    replace hd : inner = .SortedMulti smv := hd
    subst hd
    unfold Wsh.from_str
    rw [htree]
    show Wsh.from_tree E (.mk "wsh" [tsm]) = .ok ⟨.SortedMulti smv⟩
    rw [wsh_from_tree_on_arg, if_pos hname, hsmv]
    rfl
  · intro pk d tpk hnew htree targs hpk
    obtain ⟨tn, ta⟩ := tpk
    replace targs : ta = [] := targs
    subst targs
    replace hpk : E.pk_from_str tn = .ok pk := hpk
    cases hu : E.pk_is_uncompressed pk with
    | true =>
        exfalso
        simp [Wpkh.new, Segwitv0.check_pk, hu] at hnew
    | false =>
        have hd : d = ⟨pk⟩ := by
          simp [Wpkh.new, Segwitv0.check_pk, hu] at hnew
          exact hnew.symm
        subst hd
        unfold Wpkh.from_str
        rw [htree]
        show Wpkh.from_tree E (.mk "wpkh" [.mk tn []]) = .ok ⟨pk⟩
        rw [wpkh_from_tree_on_leaf, hpk]
        show (match Wpkh.new E pk with
          | Except.ok d => Except.ok d
          | Except.error e => Except.error (Error.ContextError e))
          = (Except.ok ⟨pk⟩ : Except Error (Wpkh Pk))
        rw [hnew]

/-- Closed instance of `descriptor_roundtrip` at concrete descriptors of
all three shapes. -/
theorem descriptor_roundtrip_witness :
    Wsh.from_str extD (Wsh.display ⟨.Ms msD⟩) = .ok ⟨.Ms msD⟩
    ∧ Wsh.from_str extD (Wsh.display ⟨.SortedMulti smvD⟩)
        = .ok ⟨.SortedMulti smvD⟩
    ∧ Wpkh.from_str extD (Wpkh.display extD ⟨"A"⟩) = .ok ⟨"A"⟩ :=
  ⟨(descriptor_roundtrip extD).1 msD ⟨.Ms msD⟩ (.mk "pk" [.mk "A" []])
      rfl rfl (by decide) rfl,
   (descriptor_roundtrip extD).2.1 1 ["A"] smvD ⟨.SortedMulti smvD⟩
      (.mk "sortedmulti" [.mk "1" [], .mk "A" []]) rfl rfl rfl rfl rfl,
   (descriptor_roundtrip extD).2.2 "A" ⟨"A"⟩ (.mk "A" []) rfl rfl rfl rfl⟩

end RMS
